import Mathlib

/-!
Verification of the AWX subsystem-metrics core
(`awx/main/analytics/subsystem_metrics.py`) against its natural-language
specification.

Shallow embedding conventions:
* Numeric metric values (Python `int` and `float`) are modelled as `ℤ`.
  The properties verified here concern control flow, dirty-flag tracking,
  merge algebra and interval gating; none distinguishes integer from
  floating-point arithmetic.
* The redis hash under `root_key` is an association list `Hash` from field
  name to value; `hget`/`hset`/`hincrby` mirror the redis primitives used
  by the source (all are assumed atomic by the source, so sequential
  application is faithful).
* Per-node snapshot keys `<root>-<ns>_instance_<name>` are modelled as an
  association list from instance name to decoded snapshot; JSON
  serialization round-trips, so a serialized snapshot is identified with
  the decoded mapping `Snap`.
* Wall-clock reads (`time.time()`, `time.perf_counter()` differences) are
  explicit parameters.
* Fallible operations return `Option` / carry an explicit `exc` field:
  `none`/`some e` model a Python exception propagating or not.
-/

namespace AwxMetrics

/-- Association-list lookup, modelling both redis `hget` and a Python dict
read. Returns `none` when the key is absent. -/
def aget {α : Type} : List (String × α) → String → Option α
  | [], _ => none
  | (k, v) :: t, f => if k = f then some v else aget t f

/-- Association-list write, modelling both redis `hset` and Python dict
assignment: replaces the first binding of the key, or appends one. -/
def aset {α : Type} : List (String × α) → String → α → List (String × α)
  | [], f, v => [(f, v)]
  | (k, w) :: t, f, v => if k = f then (f, v) :: t else (k, w) :: aset t f v

/-- The shared redis hash stored under `root_key`: field name to aggregate
value. -/
abbrev Hash := List (String × ℤ)

/-- Redis `HINCRBY` / `HINCRBYFLOAT` on the root hash: absent fields count
as zero. -/
def hincrby (h : Hash) (f : String) (v : ℤ) : Hash :=
  aset h f ((aget h f).getD 0 + v)

/-- Character-list comparison realising lexicographic string order (the
order Python's `list.sort()` uses on the instance-name strings). -/
def charListLe : List Char → List Char → Bool
  | [], _ => true
  | _ :: _, [] => false
  | a :: s, b :: t =>
    if a.toNat < b.toNat then true
    else if b.toNat < a.toNat then false
    else charListLe s t

/-- Lexicographic order on strings, executable by the kernel. -/
def strLe (a b : String) : Bool := charListLe a.data b.data

/-- Ordered insertion for `ssort`. -/
def sinsert (x : String) : List String → List String
  | [] => [x]
  | y :: t => if strLe x y then x :: y :: t else y :: sinsert x t

/-- Sorting of instance names, modelling `instance_names.sort()`. -/
def ssort : List String → List String
  | [] => []
  | x :: t => sinsert x (ssort t)

/-- State of one scalar metric object (`BaseM.__init__`): its field name,
help text, in-process accumulator `current_value` and per-metric dirty
flag `metric_has_changed`. -/
structure BaseM where
  field : String
  help_text : String
  current_value : ℤ
  metric_has_changed : Bool
deriving DecidableEq, Repr

/-- Constructor state of `BaseM(field, help_text)`. -/
def BaseM.mk0 (field help_text : String) : BaseM :=
  ⟨field, help_text, 0, false⟩

/-- Source `BaseM.inc`: adds to the accumulator and marks the metric
dirty. -/
def BaseM.inc (m : BaseM) (value : ℤ) : BaseM :=
  { m with current_value := m.current_value + value, metric_has_changed := true }

/-- Source `BaseM.set`: overwrites the accumulator and marks the metric
dirty. -/
def BaseM.set (m : BaseM) (value : ℤ) : BaseM :=
  { m with current_value := value, metric_has_changed := true }

/-- Source `BaseM.get`: the in-process value only. -/
def BaseM.get (m : BaseM) : ℤ := m.current_value

/-- Source `IntM.decode_value`: `int(value)` when present, else `0`. -/
def IntM.decode_value (value : Option ℤ) : ℤ := value.getD 0

/-- Source `FloatM.decode_value`: `float(value)` when present, else
`0.0`. -/
def FloatM.decode_value (value : Option ℤ) : ℤ := value.getD 0

/-- Source `SetIntM.decode_value`: `int(value)` when present, else `0`. -/
def SetIntM.decode_value (value : Option ℤ) : ℤ := value.getD 0

/-- Source `SetFloatM.decode_value`: `float(value)` when present, else
`0`. -/
def SetFloatM.decode_value (value : Option ℤ) : ℤ := value.getD 0

/-- Source `BaseM.decode` specialised to the integer decoders: read the
field from the root hash. -/
def BaseM.decode (m : BaseM) (conn : Hash) : ℤ :=
  IntM.decode_value (aget conn m.field)

/-- Source `IntM.store_value`: when dirty, `HINCRBY` the accumulated delta
into the shared hash, zero the accumulator and clear the dirty flag;
otherwise a no-op. -/
def IntM.store_value (m : BaseM) (conn : Hash) : BaseM × Hash :=
  if m.metric_has_changed then
    ({ m with current_value := 0, metric_has_changed := false },
      hincrby conn m.field m.current_value)
  else (m, conn)

/-- Source `FloatM.store_value`: identical to `IntM.store_value` except it
uses `HINCRBYFLOAT`, which the integer model renders the same way. -/
def FloatM.store_value (m : BaseM) (conn : Hash) : BaseM × Hash :=
  if m.metric_has_changed then
    ({ m with current_value := 0, metric_has_changed := false },
      hincrby conn m.field m.current_value)
  else (m, conn)

/-- Source `SetIntM.store_value`: when dirty, `HSET` (overwrite) the shared
value and clear the dirty flag; the accumulator is kept. -/
def SetIntM.store_value (m : BaseM) (conn : Hash) : BaseM × Hash :=
  if m.metric_has_changed then
    ({ m with metric_has_changed := false }, aset conn m.field m.current_value)
  else (m, conn)

/-- Source `SetFloatM.store_value`: inherited unchanged from `SetIntM`. -/
def SetFloatM.store_value (m : BaseM) (conn : Hash) : BaseM × Hash :=
  SetIntM.store_value m conn

/-- Decoded value of one metric as it appears in a per-node snapshot:
scalars decode to a number, histograms to bucket counts plus sum and
total (`HistogramM.decode`). -/
inductive MVal where
  | scalar (value : ℤ)
  | hist (counts : List ℤ) (sumv : ℤ) (infv : ℤ)
deriving DecidableEq, Repr

/-- State of one histogram metric object (`HistogramM.__init__`): the
boundary list, one `IntM` sub-counter per boundary (insertion-ordered
dict `buckets_to_keys`), the overflow/total counter `inf` and the
sum-of-observations counter `sum`. -/
structure HistogramM where
  base : BaseM
  buckets : List ℤ
  buckets_to_keys : List (ℤ × BaseM)
  inf : BaseM
  sum : BaseM
deriving DecidableEq, Repr

/-- Constructor state of `HistogramM(field, help_text, buckets)`. -/
def HistogramM.mk0 (field help_text : String) (buckets : List ℤ) : HistogramM where
  base := BaseM.mk0 field help_text
  buckets := buckets
  buckets_to_keys := buckets.map (fun b => (b, BaseM.mk0 (field ++ "_" ++ toString b) ""))
  inf := BaseM.mk0 (field ++ "_inf") ""
  sum := BaseM.mk0 (field ++ "_sum") ""

/-- The bucket loop of `HistogramM.observe`: increment the sub-counter of
the first boundary `b` with `value ≤ b`, then stop (`break`). -/
def observeBuckets (value : ℤ) : List (ℤ × BaseM) → List (ℤ × BaseM)
  | [] => []
  | (b, c) :: t =>
    if value ≤ b then (b, c.inc 1) :: t else (b, c) :: observeBuckets value t

/-- Source `HistogramM.observe`: bucket loop, then unconditionally add the
value to `sum` and `1` to `inf`. -/
def HistogramM.observe (m : HistogramM) (value : ℤ) : HistogramM :=
  { m with
    buckets_to_keys := observeBuckets value m.buckets_to_keys
    sum := m.sum.inc value
    inf := m.inf.inc 1 }

/-- Source `HistogramM.decode`: bucket counts in `buckets_to_keys` order,
then `sum` and `inf`, each read from the shared hash. -/
def HistogramM.decode (m : HistogramM) (conn : Hash) : MVal :=
  MVal.hist (m.buckets_to_keys.map (fun p => p.2.decode conn))
    (m.sum.decode conn) (m.inf.decode conn)

/-- The bucket loop of `HistogramM.store_value`, threading the hash through
each sub-counter's `IntM.store_value`. -/
def storeBuckets : List (ℤ × BaseM) → Hash → List (ℤ × BaseM) × Hash
  | [], c => ([], c)
  | (b, m) :: t, c =>
    let r := IntM.store_value m c
    let rt := storeBuckets t r.2
    ((b, r.1) :: rt.1, rt.2)

/-- Source `HistogramM.store_value`: store every bucket sub-counter, then
`sum`, then `inf` (the histogram's own `current_value` is never stored). -/
def HistogramM.store_value (m : HistogramM) (conn : Hash) : HistogramM × Hash :=
  let rb := storeBuckets m.buckets_to_keys conn
  let rs := IntM.store_value m.sum rb.2
  let ri := IntM.store_value m.inf rs.2
  ({ m with buckets_to_keys := rb.1, sum := rs.1, inf := ri.1 }, ri.2)

/-- A decoded per-node snapshot: field name to decoded value, as produced
by `load_local_metrics` / stored under an `_instance_` key. -/
abbrev Snap := List (String × MVal)

/-- Rendering of a snapshot value inside an exposition sample line. -/
def MVal.str : MVal → String
  | .scalar v => toString v
  | .hist counts sumv infv =>
    "\x7b" ++ toString counts ++ " " ++ toString sumv ++ " " ++ toString infv ++ "\x7d"

/-- Source `BaseM.to_prometheus`: one HELP/TYPE header, then one sample
line per instance whose snapshot contains this field; instances missing
the field are skipped (the source marks this with a comment about stale
instances after upgrades, and logs nothing). -/
def BaseM.to_prometheus (m : BaseM) (instance_data : List (String × Snap)) : String :=
  instance_data.foldl
    (fun out p =>
      match aget p.2 m.field with
      | some v => out ++ m.field ++ "\x7bnode=\"" ++ p.1 ++ "\"\x7d " ++ v.str ++ "\n"
      | none => out)
    ("# HELP " ++ m.field ++ " " ++ m.help_text ++ "\n# TYPE " ++ m.field ++ " gauge\n")

/-- Sample lines of `HistogramM.to_prometheus` for one instance. The
source indexes `instance_data[instance][self.field]["counts"]` with no
membership check, so a snapshot missing the field (or holding a
non-histogram value there) raises a `KeyError`/`TypeError`, modelled as
`none`. Bucket lines are cumulative prefix sums; the `+Inf` bucket and
`_count` line both use the decoded total `inf`. -/
def histLines (field : String) (buckets : List ℤ) (inst : String) : Option MVal → Option String
  | some (.hist counts sumv infv) =>
    some (String.join (buckets.enum.map (fun p =>
        field ++ "_bucket\x7ble=\"" ++ toString p.2 ++ "\",node=\"" ++ inst ++ "\"\x7d "
          ++ toString ((counts.take (p.1 + 1)).sum) ++ "\n"))
      ++ field ++ "_bucket\x7ble=\"+Inf\",node=\"" ++ inst ++ "\"\x7d " ++ toString infv ++ "\n"
      ++ field ++ "_count\x7bnode=\"" ++ inst ++ "\"\x7d " ++ toString infv ++ "\n"
      ++ field ++ "_sum\x7bnode=\"" ++ inst ++ "\"\x7d " ++ toString sumv ++ "\n")
  | some (.scalar _) => none
  | none => none

/-- Source `HistogramM.to_prometheus`: header plus per-instance histogram
lines; the first instance whose snapshot lacks the field aborts the
rendering with an exception (`none`). -/
def HistogramM.to_prometheus (m : HistogramM) (instance_data : List (String × Snap)) :
    Option String :=
  instance_data.foldl
    (fun acc p =>
      match acc with
      | none => none
      | some out => (histLines m.base.field m.buckets p.1 (aget p.2 m.base.field)).map (out ++ ·))
    (some ("# HELP " ++ m.base.field ++ " " ++ m.base.help_text ++ "\n# TYPE "
      ++ m.base.field ++ " histogram\n"))

/-- Concrete subclass tags of the scalar metric classes. -/
inductive MKind where
  | intM
  | floatM
  | setIntM
  | setFloatM
deriving DecidableEq, Repr

/-- One registered metric object: a scalar of one of the four concrete
classes, or a histogram. -/
inductive Metric where
  | scalar (kind : MKind) (s : BaseM)
  | histogram (h : HistogramM)
deriving DecidableEq, Repr

/-- Field name of a metric object. -/
def Metric.field : Metric → String
  | .scalar _ s => s.field
  | .histogram h => h.base.field

/-- Per-metric dirty flag (`metric_has_changed`) of a metric object. -/
def Metric.metric_has_changed : Metric → Bool
  | .scalar _ s => s.metric_has_changed
  | .histogram h => h.base.metric_has_changed

/-- Dispatch of `store_value` on the concrete class. -/
def Metric.store_value : Metric → Hash → Metric × Hash
  | .scalar .intM s, c =>
    let r := IntM.store_value s c
    (.scalar .intM r.1, r.2)
  | .scalar .floatM s, c =>
    let r := FloatM.store_value s c
    (.scalar .floatM r.1, r.2)
  | .scalar .setIntM s, c =>
    let r := SetIntM.store_value s c
    (.scalar .setIntM r.1, r.2)
  | .scalar .setFloatM s, c =>
    let r := SetFloatM.store_value s c
    (.scalar .setFloatM r.1, r.2)
  | .histogram h, c =>
    let r := HistogramM.store_value h c
    (.histogram r.1, r.2)

/-- Dispatch of `decode` on the concrete class (in the integer model the
four scalar decoders coincide). -/
def Metric.decode : Metric → Hash → MVal
  | .scalar _ s, c => .scalar (s.decode c)
  | .histogram h, c => h.decode c

/-- The inherited `BaseM.inc` applied to a metric object. -/
def Metric.inc : Metric → ℤ → Metric
  | .scalar k s, v => .scalar k (s.inc v)
  | .histogram h, v => .histogram { h with base := h.base.inc v }

/-- The inherited `BaseM.set` applied to a metric object. -/
def Metric.set : Metric → ℤ → Metric
  | .scalar k s, v => .scalar k (s.set v)
  | .histogram h, v => .histogram { h with base := h.base.set v }

/-- The inherited `BaseM.get` applied to a metric object. -/
def Metric.get : Metric → ℤ
  | .scalar _ s => s.get
  | .histogram h => h.base.get

/-- Dispatch of `to_prometheus` on the concrete class; only the histogram
renderer can raise. -/
def Metric.to_prometheus : Metric → List (String × Snap) → Option String
  | .scalar _ s, idata => some (s.to_prometheus idata)
  | .histogram h, idata => h.to_prometheus idata

/-- Python dict insertion keyed by `field`, used to build the `METRICS`
dict from `itertools.chain(METRICSLIST, _METRICSLIST)`: a later entry
with the same field replaces the earlier one. -/
def dictInsertMetric : List Metric → Metric → List Metric
  | [], m => [m]
  | x :: t, m => if x.field = m.field then m :: t else x :: dictInsertMetric t m

/-- Source `Metrics._METRICSLIST`: the three self-observability metrics
appended to every namespace. -/
def subsystem_metricslist : List Metric :=
  [ .scalar .floatM (BaseM.mk0 "subsystem_metrics_pipe_execute_seconds"
      "Time spent saving metrics to redis"),
    .scalar .intM (BaseM.mk0 "subsystem_metrics_pipe_execute_calls"
      "Number of calls to pipe_execute"),
    .scalar .floatM (BaseM.mk0 "subsystem_metrics_send_metrics_seconds"
      "Time spent sending metrics to other nodes") ]

/-- The `METRICS` dict built in `Metrics.__init__` from
`chain(METRICSLIST, _METRICSLIST)`, in insertion order. -/
def mkMETRICS (metricslist : List Metric) : List Metric :=
  (metricslist ++ subsystem_metricslist).foldl dictInsertMetric []

/-- In-process state of one `Metrics` namespace object
(`auto_pipe_execute=False` configuration): the `METRICS` dict (as an
ordered list keyed by `Metric.field`), the namespace-level dirty flag,
the time of the last flush, the two interval settings, this node's
identity, and the `previous_send_metrics` gauge object. -/
structure Metrics where
  namespace_name : String
  metrics : List Metric
  metrics_have_changed : Bool
  last_pipe_execute : ℤ
  pipe_execute_interval : ℤ
  send_metrics_interval : ℤ
  instance_name : String
  previous_send_metrics : BaseM
deriving DecidableEq, Repr

/-- Constructor state of `Metrics.__init__`: `last_pipe_execute` is the
construction time, `metrics_have_changed` defaults to true, and
`previous_send_metrics` is a fresh `SetFloatM('send_metrics_time', ...)`. -/
def Metrics.mk0 (ns : String) (metricslist : List Metric) (instance_name : String)
    (now pipe_execute_interval send_metrics_interval : ℤ)
    (metrics_have_changed : Bool := true) : Metrics where
  namespace_name := ns
  metrics := mkMETRICS metricslist
  metrics_have_changed := metrics_have_changed
  last_pipe_execute := now
  pipe_execute_interval := pipe_execute_interval
  send_metrics_interval := send_metrics_interval
  instance_name := instance_name
  previous_send_metrics :=
    BaseM.mk0 "send_metrics_time" "Timestamp of previous send_metrics call"

/-- Lookup `self.METRICS[field]`; `none` models the `KeyError` raised on an
unknown field name. -/
def Metrics.findMetric (ms : Metrics) (field : String) : Option Metric :=
  ms.metrics.find? (fun m => m.field = field)

/-- Replace the first metric with the given field by its image under `f`
(a Python in-place mutation of the dict entry's object). -/
def updateMetric (l : List Metric) (field : String) (f : Metric → Metric) : List Metric :=
  match l with
  | [] => []
  | m :: t => if m.field = field then f m :: t else m :: updateMetric t field f

/-- Source `Metrics.inc` (with `auto_pipe_execute=False`): a no-op for a
zero delta, otherwise `inc` the metric object and set the namespace-level
dirty flag; `none` models the `KeyError` on an unknown field. -/
def Metrics.inc (ms : Metrics) (field : String) (value : ℤ) : Option Metrics :=
  if value ≠ 0 then
    match ms.findMetric field with
    | none => none
    | some _ =>
      some { ms with
        metrics := updateMetric ms.metrics field (fun m => m.inc value)
        metrics_have_changed := true }
  else some ms

/-- Source `Metrics.set` (with `auto_pipe_execute=False`). -/
def Metrics.set (ms : Metrics) (field : String) (value : ℤ) : Option Metrics :=
  match ms.findMetric field with
  | none => none
  | some _ =>
    some { ms with
      metrics := updateMetric ms.metrics field (fun m => m.set value)
      metrics_have_changed := true }

/-- Source `Metrics.get`: the in-process value of the named metric. -/
def Metrics.get (ms : Metrics) (field : String) : Option ℤ :=
  (ms.findMetric field).map Metric.get

/-- Source `Metrics.decode`: the shared-store value of the named metric. -/
def Metrics.decode (ms : Metrics) (conn : Hash) (field : String) : Option MVal :=
  (ms.findMetric field).map (fun m => m.decode conn)

/-- Source `Metrics.load_local_metrics`: decode every registered metric
from the shared hash, keyed by field. -/
def Metrics.load_local_metrics (ms : Metrics) (conn : Hash) : Snap :=
  ms.metrics.map (fun m => (m.field, m.decode conn))

/-- Source `Metrics.should_pipe_execute`: false when the namespace dirty
flag is clear, else true exactly when the time since the last flush
exceeds the flush interval. -/
def Metrics.should_pipe_execute (ms : Metrics) (now : ℤ) : Bool :=
  if ms.metrics_have_changed = false then false
  else if now - ms.last_pipe_execute > ms.pipe_execute_interval then true else false

/-- Shared external state: the root hash, the per-node snapshot keys, and
the broadcast lock. -/
structure Store where
  hash : Hash
  snapshots : List (String × Snap)
  lockHeld : Bool
deriving DecidableEq, Repr

/-- The broadcast payload handed to `emit_channel_notification`. -/
structure Payload where
  instance_name : String
  metrics : Snap
  metrics_namespace : String
deriving DecidableEq, Repr

/-- Outcome of one `send_metrics` call: the updated namespace object and
shared state, the payload published (if any), and the exception
propagated to the caller (if any). -/
structure SendResult where
  ms : Metrics
  store : Store
  payload : Option Payload
  exc : Option String
deriving DecidableEq, Repr

/-- Source `Metrics.send_metrics`. `bodyFails` models an exception thrown
inside the `try` block before any store mutation (e.g. a redis failure);
`releaseFails` models `lock.release()` throwing (e.g.
`LockNotOwnedError`), which the `finally` clause logs at warning level
and swallows. If the non-blocking lock acquisition fails the call
returns immediately. Once the lock is held: re-read the shared
`send_metrics_time` gauge, and only when the elapsed time exceeds the
broadcast interval serialize the decoded local state, store it under
this node's snapshot key, publish it, then set and store the new
timestamp; finally release the lock. -/
def Metrics.send_metrics (ms : Metrics) (st : Store) (now : ℤ)
    (bodyFails releaseFails : Bool) : SendResult :=
  if st.lockHeld then ⟨ms, st, none, none⟩
  else
    let locked : Store := { st with lockHeld := true }
    if bodyFails then
      if releaseFails then ⟨ms, locked, none, some "send body failed"⟩
      else ⟨ms, { locked with lockHeld := false }, none, some "send body failed"⟩
    else
      let prev := SetFloatM.decode_value (aget locked.hash ms.previous_send_metrics.field)
      let step :=
        if now - prev > ms.send_metrics_interval then
          let serialized := ms.load_local_metrics locked.hash
          let st1 : Store :=
            { locked with snapshots := aset locked.snapshots ms.instance_name serialized }
          let payload : Payload := ⟨ms.instance_name, serialized, ms.namespace_name⟩
          let psm := ms.previous_send_metrics.set now
          let r := SetFloatM.store_value psm st1.hash
          (({ ms with previous_send_metrics := r.1 } : Metrics),
            ({ st1 with hash := r.2 } : Store), some payload)
        else (ms, locked, (none : Option Payload))
      if releaseFails then ⟨step.1, step.2.1, step.2.2, none⟩
      else ⟨step.1, { step.2.1 with lockHeld := false }, step.2.2, none⟩

/-- The loop of `pipe_execute` storing every registered metric into the
pipeline, in dict order. -/
def storeAll : List Metric → Hash → List Metric × Hash
  | [], c => ([], c)
  | m :: t, c =>
    let r := m.store_value c
    let rt := storeAll t r.2
    (r.1 :: rt.1, rt.2)

/-- Outcome of one `pipe_execute` call. -/
structure PipeResult where
  ms : Metrics
  store : Store
  payload : Option Payload
  exc : Option String
deriving DecidableEq, Repr

/-- Source `Metrics.pipe_execute`: a no-op unless the namespace dirty flag
is set; otherwise store every metric, record the flush time, clear the
namespace flag, `inc` the flush duration and call counter directly on
the metric objects, call `send_metrics`, and `inc` its duration
(skipped, like any following statement, if `send_metrics` raised).
`d1` and `d2` are the two measured `perf_counter` durations, `tNow` the
`time.time()` recorded as `last_pipe_execute`, `sendNow` the
`time.time()` read inside `send_metrics`. -/
def Metrics.pipe_execute (ms : Metrics) (st : Store) (d1 d2 tNow sendNow : ℤ)
    (bodyFails releaseFails : Bool) : PipeResult :=
  if ms.metrics_have_changed = true then
    let r := storeAll ms.metrics st.hash
    let ms1 : Metrics :=
      { ms with metrics := r.1, last_pipe_execute := tNow, metrics_have_changed := false }
    let ms2 : Metrics :=
      { ms1 with metrics :=
          updateMetric ms1.metrics "subsystem_metrics_pipe_execute_seconds" (fun m => m.inc d1) }
    let ms3 : Metrics :=
      { ms2 with metrics :=
          updateMetric ms2.metrics "subsystem_metrics_pipe_execute_calls" (fun m => m.inc 1) }
    let sr := ms3.send_metrics { st with hash := r.2 } sendNow bodyFails releaseFails
    match sr.exc with
    | some e => ⟨sr.ms, sr.store, sr.payload, some e⟩
    | none =>
      let ms4 : Metrics :=
        { sr.ms with metrics :=
            (updateMetric sr.ms.metrics "subsystem_metrics_send_metrics_seconds"
              (fun m => m.inc d2)) }
      ⟨ms4, sr.store, sr.payload, none⟩
  else ⟨ms, st, none, none⟩

/-- One step of the instance loop in `load_other_metrics`: apply the node
filter, then fetch the instance's stored snapshot, silently skipping
instances whose snapshot key is absent. -/
def loadStep (snaps : List (String × Snap)) (fl : List String)
    (acc : List (String × Snap)) (inst : String) : List (String × Snap) :=
  if fl = [] ∨ inst ∈ fl then
    match aget snaps inst with
    | some d => aset acc inst d
    | none => acc
  else acc

/-- Source `Metrics.load_other_metrics`: collect this node's name plus
every scanned `_instance_` key suffix, sort them, and read each passing
instance's stored snapshot from the shared store (this node included). -/
def Metrics.load_other_metrics (ms : Metrics) (st : Store) (node_filter : List String) :
    List (String × Snap) :=
  let instance_names := ssort (ms.instance_name :: st.snapshots.map (fun p => p.1))
  instance_names.foldl (loadStep st.snapshots node_filter) []

/-- Source `Metrics.generate_metrics`: load the aggregated view, and when
it is non-empty render every metric passing the metric filter, in
registry order; `none` models a rendering exception. -/
def Metrics.generate_metrics (ms : Metrics) (st : Store)
    (node_filter metrics_filter : List String) : Option String :=
  let instance_data := ms.load_other_metrics st node_filter
  if instance_data = [] then some ""
  else
    ms.metrics.foldl
      (fun acc m =>
        match acc with
        | none => none
        | some out =>
          if metrics_filter = [] ∨ m.field ∈ metrics_filter then
            (m.to_prometheus instance_data).map (out ++ ·)
          else some out)
      (some "")

/-- Python truthiness of a decoded snapshot entry, as tested by
`if not entry` in the collector: `None` is handled separately; a scalar
is falsy exactly when zero; a decoded histogram is a three-key dict,
always truthy. -/
def MVal.falsy : MVal → Bool
  | .scalar v => v = 0
  | .hist _ _ _ => false

/-- One metric family yielded by the collector bridge. -/
inductive PromFamily where
  | gauge (name help : String) (value : MVal)
  | histogramF (name help : String) (buckets : List (String × String)) (sum_value : ℤ)
deriving DecidableEq, Repr

/-- The metric loop of `CustomToPrometheusMetricsCollector.collect`:
entries that are absent or falsy are skipped with a debug log; a
histogram metric whose entry is not a histogram dict raises (`none`). -/
def collectLoop : List Metric → Snap → Option (List PromFamily)
  | [], _ => some []
  | m :: t, host_metrics =>
    match aget host_metrics m.field with
    | none => collectLoop t host_metrics
    | some v =>
      if v.falsy then collectLoop t host_metrics
      else
        match m, v with
        | .histogram h, .hist counts sumv _ =>
          (collectLoop t host_metrics).map
            (PromFamily.histogramF h.base.field h.base.help_text
              ((h.buckets.zip counts).map (fun p => (toString p.1, toString p.2))) sumv :: ·)
        | .histogram _, .scalar _ => none
        | .scalar _ s, v => (collectLoop t host_metrics).map
            (PromFamily.gauge s.field s.help_text v :: ·)

/-- Source `CustomToPrometheusMetricsCollector.collect`: aggregate with no
filters; yield nothing when no snapshot data exists at all; otherwise
look up this host's entry (its absence makes `host_metrics.get` raise an
`AttributeError`, modelled as `none`) and run the metric loop. -/
def CustomToPrometheusMetricsCollector.collect (ms : Metrics) (st : Store)
    (my_hostname : String) : Option (List PromFamily) :=
  let instance_data := ms.load_other_metrics st []
  if instance_data = [] then some []
  else
    match aget instance_data my_hostname with
    | none => none
    | some host_metrics => collectLoop ms.metrics host_metrics

/-- Index of the first bucket boundary `b` with `value ≤ b`, the bucket
`HistogramM.observe` increments. -/
def firstBucketIdx (value : ℤ) : List ℤ → Option ℕ
  | [] => none
  | b :: t => if value ≤ b then some 0 else (firstBucketIdx value t).map (· + 1)

theorem aget_aset {α : Type} (l : List (String × α)) (k i : String) (v : α) :
    aget (aset l k v) i = if k = i then some v else aget l i := by
  induction l with
  | nil => by_cases h : k = i <;> simp [aset, aget, h]
  | cons p t ih =>
    obtain ⟨pk, pv⟩ := p
    by_cases hk : pk = k
    · subst hk
      by_cases hi : pk = i <;> simp [aset, aget, hi]
    · by_cases hi : pk = i
      · subst hi
        have hk' : ¬k = pk := fun h => hk h.symm
        simp [aset, hk, aget, hk']
      · simp [aset, hk, aget, hi, ih]

theorem aset_aset_same {α : Type} (l : List (String × α)) (k : String) (v w : α) :
    aset (aset l k v) k w = aset l k w := by
  induction l with
  | nil => simp [aset]
  | cons p t ih =>
    obtain ⟨pk, pv⟩ := p
    by_cases hk : pk = k
    · simp [aset, hk]
    · simp [aset, hk, ih]

theorem hincrby_hincrby (h : Hash) (f : String) (v w : ℤ) :
    hincrby (hincrby h f v) f w = hincrby h f (v + w) := by
  simp [hincrby, aget_aset, aset_aset_same, add_assoc]


theorem send_metrics_ms_metrics (ms : Metrics) (st : Store) (now : ℤ) (bF rF : Bool) :
    (ms.send_metrics st now bF rF).ms.metrics = ms.metrics := by
  unfold Metrics.send_metrics
  dsimp only
  split_ifs <;> rfl

theorem send_metrics_ms_flag (ms : Metrics) (st : Store) (now : ℤ) (bF rF : Bool) :
    (ms.send_metrics st now bF rF).ms.metrics_have_changed = ms.metrics_have_changed := by
  unfold Metrics.send_metrics
  dsimp only
  split_ifs <;> rfl

theorem send_metrics_ms_intervals (ms : Metrics) (st : Store) (now : ℤ) (bF rF : Bool) :
    (ms.send_metrics st now bF rF).ms.last_pipe_execute = ms.last_pipe_execute ∧
    (ms.send_metrics st now bF rF).ms.pipe_execute_interval = ms.pipe_execute_interval ∧
    (ms.send_metrics st now bF rF).ms.send_metrics_interval = ms.send_metrics_interval ∧
    (ms.send_metrics st now bF rF).ms.instance_name = ms.instance_name ∧
    (ms.send_metrics st now bF rF).ms.namespace_name = ms.namespace_name ∧
    (ms.send_metrics st now bF rF).ms.previous_send_metrics.field
      = ms.previous_send_metrics.field := by
  unfold Metrics.send_metrics
  dsimp only
  split_ifs <;>
    simp [BaseM.set, SetFloatM.store_value, SetIntM.store_value]

theorem send_metrics_exc_none (ms : Metrics) (st : Store) (now : ℤ) (rF : Bool) :
    (ms.send_metrics st now false rF).exc = none := by
  unfold Metrics.send_metrics
  dsimp only
  split_ifs <;> simp_all

theorem pipe_execute_flag_false (ms : Metrics) (st : Store) (d1 d2 tNow sendNow : ℤ)
    (bF rF : Bool) :
    (ms.pipe_execute st d1 d2 tNow sendNow bF rF).ms.metrics_have_changed = false := by
  unfold Metrics.pipe_execute
  dsimp only
  by_cases h : ms.metrics_have_changed = true
  · simp only [h, if_true]
    split
    · rename_i sr e heq
      rw [send_metrics_ms_flag]
    · rw [send_metrics_ms_flag]
  · simp only [h, if_false]
    exact Bool.not_eq_true ms.metrics_have_changed |>.mp h

/-- Example namespace used as concrete input in witnesses: only the three
built-in self-observability metrics, node `n1`, flush interval 5,
broadcast interval 10. -/
def exMs : Metrics := Metrics.mk0 "awx" [] "n1" 0 5 10

/-- Example shared state: a root hash holding an aggregated value 7 for the
flush-call counter, one stored snapshot for `n1` recording the stale
value 5, lock free. -/
def exStore : Store :=
  ⟨[("subsystem_metrics_pipe_execute_calls", 7)],
    [("n1", [("subsystem_metrics_pipe_execute_calls", MVal.scalar 5)])], false⟩

/-- C4: additive merge is commutative and lossless. `inc(a)` then `inc(b)`
then one `store_value` produces exactly the same metric state and shared
hash as storing after `inc(a)` and storing again after `inc(b)`; each
merge adds the accumulated local value onto the shared entry and resets
the local accumulator to 0. Holds for `IntM` and `FloatM` alike. -/
theorem C4_additive_merge_lossless (m : BaseM) (a b : ℤ) (conn : Hash) :
    IntM.store_value ((m.inc a).inc b) conn
      = IntM.store_value ((IntM.store_value (m.inc a) conn).1.inc b)
          (IntM.store_value (m.inc a) conn).2 ∧
    (IntM.store_value (m.inc a) conn).2
      = hincrby conn m.field (m.current_value + a) ∧
    (IntM.store_value (m.inc a) conn).1.current_value = 0 ∧
    FloatM.store_value ((m.inc a).inc b) conn
      = FloatM.store_value ((FloatM.store_value (m.inc a) conn).1.inc b)
          (FloatM.store_value (m.inc a) conn).2 := by
  refine ⟨?_, ?_, ?_, ?_⟩ <;>
    simp [IntM.store_value, FloatM.store_value, BaseM.inc, hincrby_hincrby, add_assoc]

/-- C9: after a dirty `store_value`, a gauge metric (`SetIntM`/`SetFloatM`)
keeps its `current_value` (so `get` still returns the last set value)
while an additive metric (`IntM`/`FloatM`) has it reset to 0; all four
clear the per-metric dirty flag. -/
theorem C9_store_value_gauge_vs_additive (m : BaseM) (conn : Hash)
    (hd : m.metric_has_changed = true) :
    (SetIntM.store_value m conn).1.current_value = m.current_value ∧
    (SetIntM.store_value m conn).1.metric_has_changed = false ∧
    (SetFloatM.store_value m conn).1.current_value = m.current_value ∧
    (SetFloatM.store_value m conn).1.metric_has_changed = false ∧
    (SetIntM.store_value m conn).1.get = m.get ∧
    (IntM.store_value m conn).1.current_value = 0 ∧
    (IntM.store_value m conn).1.metric_has_changed = false ∧
    (FloatM.store_value m conn).1.current_value = 0 ∧
    (FloatM.store_value m conn).1.metric_has_changed = false := by
  simp [SetIntM.store_value, SetFloatM.store_value, IntM.store_value,
    FloatM.store_value, BaseM.get, hd]

/-- Witness for C9 at the concrete gauge state reached by `set 42`. -/
theorem C9_store_value_gauge_vs_additive_witness :
    (SetIntM.store_value ((BaseM.mk0 "x" "hx").set 42) []).1.current_value
        = ((BaseM.mk0 "x" "hx").set 42).current_value ∧
    (SetIntM.store_value ((BaseM.mk0 "x" "hx").set 42) []).1.metric_has_changed = false ∧
    (SetFloatM.store_value ((BaseM.mk0 "x" "hx").set 42) []).1.current_value
        = ((BaseM.mk0 "x" "hx").set 42).current_value ∧
    (SetFloatM.store_value ((BaseM.mk0 "x" "hx").set 42) []).1.metric_has_changed = false ∧
    (SetIntM.store_value ((BaseM.mk0 "x" "hx").set 42) []).1.get
        = ((BaseM.mk0 "x" "hx").set 42).get ∧
    (IntM.store_value ((BaseM.mk0 "x" "hx").set 42) []).1.current_value = 0 ∧
    (IntM.store_value ((BaseM.mk0 "x" "hx").set 42) []).1.metric_has_changed = false ∧
    (FloatM.store_value ((BaseM.mk0 "x" "hx").set 42) []).1.current_value = 0 ∧
    (FloatM.store_value ((BaseM.mk0 "x" "hx").set 42) []).1.metric_has_changed = false :=
  C9_store_value_gauge_vs_additive ((BaseM.mk0 "x" "hx").set 42) [] (by decide)

/-- C7: `send_metrics` never raises to its caller on lock contention or on
lock-release failure: a failed non-blocking acquisition returns
immediately with the state untouched; when the body does not itself
raise, the call returns without exception even if `lock.release()`
throws; and whenever release does not fail the lock is back to its
initial availability on every path (publish, interval skip, or body
exception). -/
theorem C7_send_metrics_no_raise (ms : Metrics) (st : Store) (now : ℤ) (bF rF : Bool) :
    (st.lockHeld = true → ms.send_metrics st now bF rF = ⟨ms, st, none, none⟩) ∧
    (bF = false → (ms.send_metrics st now bF rF).exc = none) ∧
    (rF = false → (ms.send_metrics st now bF rF).store.lockHeld = st.lockHeld) := by
  refine ⟨?_, ?_, ?_⟩ <;> intro h
  · unfold Metrics.send_metrics
    simp [h]
  · subst h
    exact send_metrics_exc_none ms st now rF
  · subst h
    unfold Metrics.send_metrics
    dsimp only
    split_ifs <;> simp_all

/-- Witness for C7: with the body succeeding but the lock release throwing
(`LockNotOwnedError`), the call still reports no exception. -/
theorem C7_send_metrics_no_raise_witness :
    (exMs.send_metrics exStore 100 false true).exc = none :=
  (C7_send_metrics_no_raise exMs exStore 100 false true).2.1 rfl

/-- C5: `should_pipe_execute` is true exactly when the namespace dirty flag
is set and the wall-clock time since the last flush exceeds the flush
interval; in particular it is false (for every clock reading) right
after any `pipe_execute`, and a successful nonzero `inc` sets the flag
so that it becomes true once the interval has elapsed. -/
theorem C5_should_pipe_execute_iff (ms : Metrics) (now : ℤ) :
    (ms.should_pipe_execute now = true ↔
      ms.metrics_have_changed = true ∧
        now - ms.last_pipe_execute > ms.pipe_execute_interval) ∧
    (∀ st d1 d2 tNow sendNow bF rF now₂,
      (ms.pipe_execute st d1 d2 tNow sendNow bF rF).ms.should_pipe_execute now₂ = false) ∧
    (∀ field v ms', ms.inc field v = some ms' → v ≠ 0 →
      ms'.metrics_have_changed = true ∧
      (now - ms'.last_pipe_execute > ms'.pipe_execute_interval →
        ms'.should_pipe_execute now = true)) := by
  refine ⟨?_, ?_, ?_⟩
  · unfold Metrics.should_pipe_execute
    by_cases h1 : ms.metrics_have_changed = false
    · simp [h1]
    · have h1' : ms.metrics_have_changed = true := by
        revert h1; cases ms.metrics_have_changed <;> simp
      by_cases h2 : now - ms.last_pipe_execute > ms.pipe_execute_interval <;>
        simp [h1, h1', h2]
  · intro st d1 d2 tNow sendNow bF rF now₂
    unfold Metrics.should_pipe_execute
    simp [pipe_execute_flag_false]
  · intro field v ms' hinc hv
    unfold Metrics.inc at hinc
    rw [if_pos hv] at hinc
    cases hfind : ms.findMetric field with
    | none => rw [hfind] at hinc; exact absurd hinc (by simp)
    | some m =>
      rw [hfind] at hinc
      have hms' : ms' =
          { ms with
            metrics := updateMetric ms.metrics field (fun m => m.inc v)
            metrics_have_changed := true } := by
        exact (Option.some.injEq _ _ ▸ hinc).symm
      subst hms'
      refine ⟨rfl, ?_⟩
      intro hgate
      unfold Metrics.should_pipe_execute
      simp at hgate ⊢
      exact hgate

/-- Witness for C5: the example namespace starts dirty with
`last_pipe_execute = 0` and flush interval 5, so at time 100 a flush is
due. -/
theorem C5_should_pipe_execute_iff_witness :
    exMs.should_pipe_execute 100 = true :=
  (C5_should_pipe_execute_iff exMs 100).1.mpr ⟨by decide, by decide⟩

theorem observeBuckets_keys (v : ℤ) (l : List (ℤ × BaseM)) :
    (observeBuckets v l).map (fun p => p.1) = l.map (fun p => p.1) := by
  induction l with
  | nil => rfl
  | cons p t ih =>
    obtain ⟨b, c⟩ := p
    by_cases h : v ≤ b <;> simp [observeBuckets, h, ih]

theorem observeBuckets_getD (v : ℤ) (l : List (ℤ × BaseM)) (i : ℕ) :
    ((observeBuckets v l).getD i (0, BaseM.mk0 "" "")).2.current_value
      = (l.getD i (0, BaseM.mk0 "" "")).2.current_value
        + (if firstBucketIdx v (l.map (fun p => p.1)) = some i then 1 else 0) := by
  induction l generalizing i with
  | nil => simp [observeBuckets, firstBucketIdx]
  | cons p t ih =>
    obtain ⟨b, c⟩ := p
    by_cases h : v ≤ b
    · cases i with
      | zero => simp [observeBuckets, h, firstBucketIdx, BaseM.inc]
      | succ j => simp [observeBuckets, h, firstBucketIdx]
    · cases i with
      | zero => simp [observeBuckets, h, firstBucketIdx]
      | succ j =>
        simp only [observeBuckets, if_neg h, firstBucketIdx, List.getD_cons_succ,
          List.map_cons]
        simpa using ih j

/-- C2: `observe(v)` increments by 1 exactly the sub-counter of the first
boundary `b` with `v ≤ b` (and no other bucket), leaves the boundary
keys unchanged, and always adds 1 to the total/overflow counter and `v`
to the sum counter, even when `v` exceeds every boundary. For boundaries
`[10, 20, 50]`, observing 5, 15, 999 then flushing yields decoded bucket
counts `[1, 1, 0]`, total 3, sum 1019. -/
theorem C2_histogram_observe (m : HistogramM) (v : ℤ) (i : ℕ) :
    (m.observe v).sum.current_value = m.sum.current_value + v ∧
    (m.observe v).inf.current_value = m.inf.current_value + 1 ∧
    (m.observe v).buckets_to_keys.map (fun p => p.1)
      = m.buckets_to_keys.map (fun p => p.1) ∧
    ((m.observe v).buckets_to_keys.getD i (0, BaseM.mk0 "" "")).2.current_value
      = (m.buckets_to_keys.getD i (0, BaseM.mk0 "" "")).2.current_value
        + (if firstBucketIdx v (m.buckets_to_keys.map (fun p => p.1)) = some i
            then 1 else 0) ∧
    HistogramM.decode
        (((((HistogramM.mk0 "f" "h" [10, 20, 50]).observe 5).observe 15).observe
            999).store_value []).1
        (((((HistogramM.mk0 "f" "h" [10, 20, 50]).observe 5).observe 15).observe
            999).store_value []).2
      = MVal.hist [1, 1, 0] 1019 3 := by
  refine ⟨?_, ?_, ?_, ?_, ?_⟩
  · simp [HistogramM.observe, BaseM.inc]
  · simp [HistogramM.observe, BaseM.inc]
  · simp [HistogramM.observe, observeBuckets_keys]
  · show ((observeBuckets v m.buckets_to_keys).getD i (0, BaseM.mk0 "" "")).2.current_value = _
    simpa using observeBuckets_getD v m.buckets_to_keys i
  · decide

/-- C6: once the lock is acquired, `send_metrics` re-reads the shared
last-broadcast timestamp gauge and proceeds only when the elapsed time
exceeds the broadcast interval; on success it stores the per-node
snapshot, publishes the payload, and writes the new timestamp back to
the shared store before the lock is released, so a subsequent call
within one broadcast interval publishes nothing. Below the interval the
call leaves every piece of state untouched. -/
theorem C6_broadcast_interval_gate (ms : Metrics) (st : Store) (now : ℤ)
    (hlock : st.lockHeld = false) :
    (now - SetFloatM.decode_value (aget st.hash ms.previous_send_metrics.field)
        > ms.send_metrics_interval →
      (ms.send_metrics st now false false).payload
        = some ⟨ms.instance_name, ms.load_local_metrics st.hash, ms.namespace_name⟩ ∧
      aget (ms.send_metrics st now false false).store.hash
          ms.previous_send_metrics.field = some now ∧
      aget (ms.send_metrics st now false false).store.snapshots ms.instance_name
        = some (ms.load_local_metrics st.hash) ∧
      (ms.send_metrics st now false false).store.lockHeld = false ∧
      (∀ now₂ bF₂ rF₂, now₂ - now ≤ ms.send_metrics_interval →
        ((ms.send_metrics st now false false).ms.send_metrics
            (ms.send_metrics st now false false).store now₂ bF₂ rF₂).payload = none)) ∧
    (¬ (now - SetFloatM.decode_value (aget st.hash ms.previous_send_metrics.field)
        > ms.send_metrics_interval) →
      ms.send_metrics st now false false = ⟨ms, st, none, none⟩) := by
  constructor
  · intro hgate
    have hres : ms.send_metrics st now false false =
        ⟨{ ms with previous_send_metrics :=
            { ms.previous_send_metrics with
                current_value := now, metric_has_changed := false } },
          ⟨aset st.hash ms.previous_send_metrics.field now,
            aset st.snapshots ms.instance_name (ms.load_local_metrics st.hash),
            false⟩,
          some ⟨ms.instance_name, ms.load_local_metrics st.hash, ms.namespace_name⟩,
          none⟩ := by
      unfold Metrics.send_metrics
      dsimp only
      simp [hlock, hgate, BaseM.set, SetFloatM.store_value, SetIntM.store_value]
    refine ⟨?_, ?_, ?_, ?_, ?_⟩
    · rw [hres]
    · rw [hres]
      simp [aget_aset]
    · rw [hres]
      simp [aget_aset]
    · rw [hres]
    · intro now₂ bF₂ rF₂ hle
      rw [hres]
      unfold Metrics.send_metrics
      dsimp only
      have hgate₂ : ¬ (now₂ - SetFloatM.decode_value
          (aget (aset st.hash ms.previous_send_metrics.field now)
            ms.previous_send_metrics.field)
          > ms.send_metrics_interval) := by
        rw [aget_aset]
        simp only [if_pos rfl, SetFloatM.decode_value, Option.getD_some, if_true,
          eq_self_iff_true]
        omega
      cases bF₂ <;> cases rF₂ <;> simp [hgate₂]
  · intro hgate
    unfold Metrics.send_metrics
    dsimp only
    have hst : ({ st with lockHeld := false } : Store) = st := by
      cases st
      simp_all
    simp [hlock, hgate, hst]

/-- Witness for C6: at time 100 with an empty timestamp entry (decoding to
0) and broadcast interval 10, the gate passes and the example namespace
publishes its decoded state. -/
theorem C6_broadcast_interval_gate_witness :
    (exMs.send_metrics exStore 100 false false).payload
      = some ⟨exMs.instance_name, exMs.load_local_metrics exStore.hash,
          exMs.namespace_name⟩ :=
  ((C6_broadcast_interval_gate exMs exStore 100 (by decide)) |>.1 (by decide)).1

theorem mem_sinsert (a x : String) (l : List String) :
    a ∈ sinsert x l ↔ a = x ∨ a ∈ l := by
  induction l with
  | nil => simp [sinsert]
  | cons y t ih =>
    by_cases h : strLe x y
    · simp [sinsert, h]
    · simp [sinsert, h, ih]
      tauto

theorem mem_ssort (a : String) (l : List String) : a ∈ ssort l ↔ a ∈ l := by
  induction l with
  | nil => simp [ssort]
  | cons x t ih => simp [ssort, mem_sinsert, ih]

theorem aget_load_loop (snaps : List (String × Snap)) (fl : List String)
    (names : List String) (acc : List (String × Snap)) (i : String) :
    aget (names.foldl (loadStep snaps fl) acc) i =
      if (fl = [] ∨ i ∈ fl) ∧ i ∈ names ∧ (aget snaps i).isSome
      then aget snaps i else aget acc i := by
  induction names generalizing acc with
  | nil => simp
  | cons n t ih =>
    rw [List.foldl_cons, ih]
    by_cases hPt : (fl = [] ∨ i ∈ fl) ∧ i ∈ t ∧ (aget snaps i).isSome
    · rw [if_pos hPt, if_pos ⟨hPt.1, List.mem_cons_of_mem n hPt.2.1, hPt.2.2⟩]
    · rw [if_neg hPt]
      by_cases hpn : fl = [] ∨ n ∈ fl
      · cases hsn : aget snaps n with
        | none =>
          simp only [loadStep, if_pos hpn, hsn]
          by_cases hin : i = n
          · subst hin
            rw [if_neg]
            rintro ⟨h1, h2, h3⟩
            rw [hsn] at h3
            exact absurd h3 (by simp)
          · rw [if_neg]
            rintro ⟨h1, h2, h3⟩
            rcases List.mem_cons.mp h2 with h | h
            · exact hin h
            · exact hPt ⟨h1, h, h3⟩
        | some d =>
          simp only [loadStep, if_pos hpn, hsn]
          rw [aget_aset]
          by_cases hin : n = i
          · subst hin
            rw [if_pos rfl, if_pos ⟨hpn, List.mem_cons_self n t, by rw [hsn]; simp⟩, hsn]
          · rw [if_neg hin, if_neg]
            rintro ⟨h1, h2, h3⟩
            rcases List.mem_cons.mp h2 with h | h
            · exact hin h.symm
            · exact hPt ⟨h1, h, h3⟩
      · simp only [loadStep, if_neg hpn]
        rw [if_neg]
        rintro ⟨h1, h2, h3⟩
        rcases List.mem_cons.mp h2 with h | h
        · exact hpn (h ▸ h1)
        · exact hPt ⟨h1, h, h3⟩

theorem aget_load_other_metrics (ms : Metrics) (st : Store) (fl : List String)
    (i : String) :
    aget (ms.load_other_metrics st fl) i =
      if (fl = [] ∨ i ∈ fl)
          ∧ (i = ms.instance_name ∨ i ∈ st.snapshots.map (fun p => p.1))
          ∧ (aget st.snapshots i).isSome
      then aget st.snapshots i else none := by
  unfold Metrics.load_other_metrics
  dsimp only
  rw [aget_load_loop]
  simp only [mem_ssort, List.mem_cons]
  rfl

/-- C1 counterexample: in a state where node `n1`'s live decode of the
shared hash (value 7) differs from its stored snapshot (value 5), the
aggregation reader returns `n1`'s stored snapshot, not its live-decoded
state — refuting the claim that this node is always included live. -/
theorem C1_live_decode_counterexample :
    exMs.instance_name = "n1" ∧
    aget (exMs.load_other_metrics exStore []) "n1"
      = some [("subsystem_metrics_pipe_execute_calls", MVal.scalar 5)] ∧
    exMs.load_local_metrics exStore.hash
      = [("subsystem_metrics_pipe_execute_seconds", MVal.scalar 0),
          ("subsystem_metrics_pipe_execute_calls", MVal.scalar 7),
          ("subsystem_metrics_send_metrics_seconds", MVal.scalar 0)] ∧
    aget (exMs.load_other_metrics exStore []) "n1"
      ≠ some (exMs.load_local_metrics exStore.hash) := by
  refine ⟨rfl, by decide, by decide, by decide⟩

/-- C1 (amended): `load_other_metrics` always places this node's name among
the candidate instance names (even when no snapshot key for it was
scanned), but reads every included node — this node included — from its
stored per-node snapshot; any node without a stored snapshot, this node
included, is simply absent from the result. -/
theorem C1_reader_reads_stored_snapshots (ms : Metrics) (st : Store)
    (fl : List String) (i : String) :
    aget (ms.load_other_metrics st fl) i =
      if (fl = [] ∨ i ∈ fl)
          ∧ (i = ms.instance_name ∨ i ∈ st.snapshots.map (fun p => p.1))
          ∧ (aget st.snapshots i).isSome
      then aget st.snapshots i else none :=
  aget_load_other_metrics ms st fl i

theorem filter_aset_pos {α : Type} (l : List (String × α)) (fl : List String)
    (n : String) (d : α) (hn : n ∈ fl) :
    (aset l n d).filter (fun p => decide (p.1 ∈ fl))
      = aset (l.filter (fun p => decide (p.1 ∈ fl))) n d := by
  induction l with
  | nil => simp [aset, hn]
  | cons p t ih =>
    obtain ⟨k, w⟩ := p
    by_cases hk : k = n
    · subst hk
      simp [aset, List.filter_cons, hn]
    · by_cases hkfl : k ∈ fl
      · simp [aset, hk, List.filter_cons, hkfl, ih]
      · simp [aset, hk, List.filter_cons, hkfl, ih]

theorem filter_aset_neg {α : Type} (l : List (String × α)) (fl : List String)
    (n : String) (d : α) (hn : n ∉ fl) :
    (aset l n d).filter (fun p => decide (p.1 ∈ fl))
      = l.filter (fun p => decide (p.1 ∈ fl)) := by
  induction l with
  | nil => simp [aset, hn]
  | cons p t ih =>
    obtain ⟨k, w⟩ := p
    by_cases hk : k = n
    · subst hk
      simp [aset, List.filter_cons, hn]
    · by_cases hkfl : k ∈ fl
      · simp [aset, hk, List.filter_cons, hkfl, ih]
      · simp [aset, hk, List.filter_cons, hkfl, ih]

theorem load_loop_filter (snaps : List (String × Snap)) (fl : List String)
    (hfl : fl ≠ []) (names : List String) (accA accF : List (String × Snap))
    (hrel : accF = accA.filter (fun p => decide (p.1 ∈ fl))) :
    names.foldl (loadStep snaps fl) accF
      = (names.foldl (loadStep snaps []) accA).filter (fun p => decide (p.1 ∈ fl)) := by
  induction names generalizing accA accF with
  | nil => simpa using hrel
  | cons n t ih =>
    rw [List.foldl_cons, List.foldl_cons]
    apply ih
    cases hsn : aget snaps n with
    | none => simp [loadStep, hsn, hrel]
    | some d =>
      by_cases hn : n ∈ fl
      · simp [loadStep, hsn, hfl, hn, hrel, filter_aset_pos]
      · simp [loadStep, hsn, hfl, hn, hrel, filter_aset_neg]

theorem load_loop_none (snaps : List (String × Snap)) (fl : List String)
    (hfl : fl ≠ []) (hnone : ∀ n ∈ fl, aget snaps n = none)
    (names : List String) (acc : List (String × Snap)) :
    names.foldl (loadStep snaps fl) acc = acc := by
  induction names generalizing acc with
  | nil => rfl
  | cons n t ih =>
    rw [List.foldl_cons]
    have hstep : loadStep snaps fl acc n = acc := by
      unfold loadStep
      by_cases hn : fl = [] ∨ n ∈ fl
      · rcases hn with h | h
        · exact absurd h hfl
        · simp [hnone n h, h]
      · simp [hn]
    rw [hstep]
    exact ih acc

/-- C8: node and metric filters are pure post-hoc intersections. With a
non-empty node filter the result is exactly the unfiltered aggregation
restricted to the filtered names (the scanned key set is unchanged); an
empty filter includes every node with a stored snapshot; and a filter
naming only nodes without snapshots yields an aggregation of zero nodes
and empty exposition text, not an error. -/
theorem C8_filters_post_hoc (ms : Metrics) (st : Store) (fl mf : List String)
    (hfl : fl ≠ []) :
    ms.load_other_metrics st fl
      = (ms.load_other_metrics st []).filter (fun p => decide (p.1 ∈ fl)) ∧
    (∀ i, aget (ms.load_other_metrics st []) i =
      if (i = ms.instance_name ∨ i ∈ st.snapshots.map (fun p => p.1))
          ∧ (aget st.snapshots i).isSome
      then aget st.snapshots i else none) ∧
    ((∀ n ∈ fl, aget st.snapshots n = none) →
      ms.load_other_metrics st fl = [] ∧ ms.generate_metrics st fl mf = some "") := by
  refine ⟨?_, ?_, ?_⟩
  · unfold Metrics.load_other_metrics
    dsimp only
    exact load_loop_filter st.snapshots fl hfl _ [] [] rfl
  · intro i
    rw [aget_load_other_metrics]
    by_cases hp : (i = ms.instance_name ∨ i ∈ st.snapshots.map (fun p => p.1))
        ∧ (aget st.snapshots i).isSome
    · rw [if_pos ⟨Or.inl rfl, hp.1, hp.2⟩, if_pos hp]
    · rw [if_neg (fun h => hp ⟨h.2.1, h.2.2⟩), if_neg hp]
  · intro hnone
    have hempty : ms.load_other_metrics st fl = [] := by
      unfold Metrics.load_other_metrics
      dsimp only
      exact load_loop_none st.snapshots fl hfl hnone _ []
    refine ⟨hempty, ?_⟩
    unfold Metrics.generate_metrics
    dsimp only
    rw [hempty]
    simp

/-- Witness for C8: filtering the example state by the unknown node `zzz`
yields an empty aggregation and empty exposition text. -/
theorem C8_filters_post_hoc_witness :
    exMs.load_other_metrics exStore ["zzz"] = [] ∧
    exMs.generate_metrics exStore ["zzz"] [] = some "" :=
  (C8_filters_post_hoc exMs exStore ["zzz"] [] (by decide)).2.2 (by decide)

theorem histFold_none (field : String) (buckets : List ℤ)
    (idata : List (String × Snap)) :
    idata.foldl
      (fun acc p =>
        match acc with
        | none => none
        | some out => (histLines field buckets p.1 (aget p.2 field)).map (out ++ ·))
      none = none := by
  induction idata with
  | nil => rfl
  | cons p t ih => simpa using ih

theorem histFold_missing (field : String) (buckets : List ℤ)
    (idata : List (String × Snap)) (inst : String) (data : Snap)
    (hmem : (inst, data) ∈ idata) (hmiss : aget data field = none)
    (acc : Option String) :
    idata.foldl
      (fun acc p =>
        match acc with
        | none => none
        | some out => (histLines field buckets p.1 (aget p.2 field)).map (out ++ ·))
      acc = none := by
  induction idata generalizing acc with
  | nil => cases hmem
  | cons p t ih =>
    rw [List.foldl_cons]
    rcases List.mem_cons.mp hmem with heq | hmem'
    · have hstep :
          (match acc with
            | none => none
            | some out => (histLines field buckets p.1 (aget p.2 field)).map (out ++ ·))
            = (none : Option String) := by
        cases acc with
        | none => rfl
        | some out =>
          subst heq
          simp [hmiss, histLines]
      rw [hstep]
      exact histFold_none field buckets t
    · exact ih hmem' _

/-- C3 counterexample: rendering a histogram metric over an aggregation in
which node `a`'s snapshot lacks the metric's field raises a `KeyError`
(modelled by `none`) instead of skipping the node — refuting the claim
that all three render paths skip missing fields without error. -/
theorem C3_histogram_missing_field_counterexample :
    HistogramM.to_prometheus (HistogramM.mk0 "f" "h" [10, 20, 50]) [("a", [])]
      = none ∧
    Metric.to_prometheus (.histogram (HistogramM.mk0 "f" "h" [10, 20, 50]))
      [("a", [])] = none := by
  refine ⟨by decide, by decide⟩

/-- C3 (amended): a node whose decoded snapshot lacks a metric field is
skipped by scalar rendering (silently, with only a source comment) and
by the collector bridge (with a debug log); histogram rendering,
however, raises a `KeyError` as soon as any aggregated node's snapshot
lacks the histogram's field. -/
theorem C3_missing_field_handling (s : BaseM) (m : Metric) (h : HistogramM)
    (inst : String) (data : Snap) (rest : List (String × Snap))
    (idata : List (String × Snap)) (t : List Metric) (host_metrics : Snap)
    (hs : aget data s.field = none)
    (hcm : aget host_metrics m.field = none)
    (hmem : (inst, data) ∈ idata)
    (hhf : aget data h.base.field = none) :
    BaseM.to_prometheus s ((inst, data) :: rest) = BaseM.to_prometheus s rest ∧
    collectLoop (m :: t) host_metrics = collectLoop t host_metrics ∧
    HistogramM.to_prometheus h idata = none := by
  refine ⟨?_, ?_, ?_⟩
  · unfold BaseM.to_prometheus
    rw [List.foldl_cons]
    congr 1
    simp [hs]
  · simp only [collectLoop, hcm]
  · unfold HistogramM.to_prometheus
    exact histFold_missing h.base.field h.buckets idata inst data hmem hhf _

/-- Witness for C3: node `a` lacks field `x`, so scalar rendering skips it,
the collector skips the absent metric, and the histogram renderer
errors out. -/
theorem C3_missing_field_handling_witness :
    BaseM.to_prometheus (BaseM.mk0 "x" "hx")
        [("a", []), ("b", [("x", MVal.scalar 3)])]
      = BaseM.to_prometheus (BaseM.mk0 "x" "hx") [("b", [("x", MVal.scalar 3)])] ∧
    collectLoop [.scalar .intM (BaseM.mk0 "x" "hx")] [] = collectLoop [] [] ∧
    HistogramM.to_prometheus (HistogramM.mk0 "x" "hx" [10]) [("a", [])] = none :=
  C3_missing_field_handling (BaseM.mk0 "x" "hx")
    (.scalar .intM (BaseM.mk0 "x" "hx")) (HistogramM.mk0 "x" "hx" [10])
    "a" [] [("b", [("x", MVal.scalar 3)])] [("a", [])] [] []
    (by decide) (by decide) (by decide) (by decide)

theorem Metric.inc_field (m : Metric) (v : ℤ) : (m.inc v).field = m.field := by
  cases m <;> rfl

theorem Metric.store_value_field (m : Metric) (c : Hash) :
    (m.store_value c).1.field = m.field := by
  cases m with
  | scalar k s =>
    cases k <;>
      simp only [Metric.store_value, IntM.store_value, FloatM.store_value,
        SetFloatM.store_value, SetIntM.store_value] <;>
      split_ifs <;> rfl
  | histogram h => rfl

theorem IntM.store_value_fst (m : BaseM) (c : Hash) :
    (IntM.store_value m c).1
      = if m.metric_has_changed then
          { m with current_value := 0, metric_has_changed := false }
        else m := by
  unfold IntM.store_value
  split_ifs <;> rfl

theorem storeBuckets_fst (l : List (ℤ × BaseM)) (c c' : Hash) :
    (storeBuckets l c).1 = (storeBuckets l c').1 := by
  induction l generalizing c c' with
  | nil => rfl
  | cons p t ih =>
    obtain ⟨b, mm⟩ := p
    unfold storeBuckets
    dsimp only
    rw [IntM.store_value_fst, IntM.store_value_fst, ih]

theorem Metric.store_value_fst_indep (m : Metric) (c c' : Hash) :
    (m.store_value c).1 = (m.store_value c').1 := by
  cases m with
  | scalar k s =>
    cases k <;>
      simp only [Metric.store_value, IntM.store_value, FloatM.store_value,
        SetFloatM.store_value, SetIntM.store_value] <;>
      split_ifs <;> rfl
  | histogram h =>
    unfold Metric.store_value HistogramM.store_value
    dsimp only
    rw [IntM.store_value_fst, IntM.store_value_fst, IntM.store_value_fst,
      IntM.store_value_fst, storeBuckets_fst h.buckets_to_keys c c']

theorem storeAll_fst (l : List Metric) (c : Hash) :
    (storeAll l c).1 = l.map (fun m => (m.store_value []).1) := by
  induction l generalizing c with
  | nil => rfl
  | cons m t ih =>
    unfold storeAll
    dsimp only
    rw [List.map_cons, ih, Metric.store_value_fst_indep m c []]

theorem find?_map_store (l : List Metric) (f : String) :
    (l.map (fun m => (m.store_value []).1)).find? (fun x => x.field = f)
      = (l.find? (fun x => x.field = f)).map (fun m => (m.store_value []).1) := by
  induction l with
  | nil => rfl
  | cons m t ih =>
    have hfield : ((m.store_value ([] : Hash)).1).field = m.field :=
      Metric.store_value_field m []
    by_cases hf : m.field = f
    · simp [List.find?_cons, hf, hfield]
    · simp [List.find?_cons, hf, hfield, ih]

theorem find?_dictInsertMetric (l : List Metric) (m : Metric) (f : String) :
    (dictInsertMetric l m).find? (fun x => x.field = f)
      = if m.field = f then some m else l.find? (fun x => x.field = f) := by
  induction l with
  | nil =>
    by_cases hmf : m.field = f <;> simp [dictInsertMetric, List.find?_cons, hmf]
  | cons x t ih =>
    by_cases hx : x.field = m.field
    · by_cases hmf : m.field = f
      · simp [dictInsertMetric, hx, List.find?_cons, hmf]
      · have hxf : ¬ x.field = f := fun hh => hmf (hx ▸ hh)
        simp [dictInsertMetric, hx, List.find?_cons, hmf, hxf]
    · simp only [dictInsertMetric, if_neg hx]
      by_cases hmf : m.field = f
      · have hxf : ¬ x.field = f := fun hh => hx (hh.trans hmf.symm)
        simp [List.find?_cons, hxf, ih, hmf]
      · by_cases hxf : x.field = f
        · simp [List.find?_cons, hxf, hmf]
        · simp [List.find?_cons, hxf, ih, hmf]

theorem find?_updateMetric (l : List Metric) (f f' : String) (g : Metric → Metric)
    (hg : ∀ m, (g m).field = m.field) :
    (updateMetric l f g).find? (fun x => x.field = f')
      = if f' = f then (l.find? (fun x => x.field = f)).map g
        else l.find? (fun x => x.field = f') := by
  induction l with
  | nil => by_cases hff : f' = f <;> simp [updateMetric, hff]
  | cons m t ih =>
    by_cases hmf : m.field = f
    · simp only [updateMetric, if_pos hmf]
      by_cases hff : f' = f
      · subst hff
        simp [List.find?_cons, hg m, hmf]
      · have hgm : ¬ (g m).field = f' := by
          rw [hg m, hmf]
          exact fun hh => hff hh.symm
        have hmf' : ¬ m.field = f' := by
          rw [hmf]
          exact fun hh => hff hh.symm
        simp [List.find?_cons, hgm, hmf', hff]
    · simp only [updateMetric, if_neg hmf]
      by_cases hff : f' = f
      · subst hff
        have hmf' : ¬ m.field = f' := hmf
        simp [List.find?_cons, hmf', ih, hmf]
      · by_cases hmf' : m.field = f'
        · simp [List.find?_cons, hmf', hff]
        · simp [List.find?_cons, hmf', ih, hff]

theorem find?_mkMETRICS_seconds (mlist : List Metric) :
    (mkMETRICS mlist).find?
        (fun x => x.field = "subsystem_metrics_pipe_execute_seconds")
      = some (.scalar .floatM (BaseM.mk0 "subsystem_metrics_pipe_execute_seconds"
          "Time spent saving metrics to redis")) := by
  unfold mkMETRICS subsystem_metricslist
  rw [List.foldl_append]
  simp only [List.foldl_cons, List.foldl_nil]
  rw [find?_dictInsertMetric, if_neg (by decide), find?_dictInsertMetric,
    if_neg (by decide), find?_dictInsertMetric, if_pos (by decide)]

theorem find?_mkMETRICS_calls (mlist : List Metric) :
    (mkMETRICS mlist).find?
        (fun x => x.field = "subsystem_metrics_pipe_execute_calls")
      = some (.scalar .intM (BaseM.mk0 "subsystem_metrics_pipe_execute_calls"
          "Number of calls to pipe_execute")) := by
  unfold mkMETRICS subsystem_metricslist
  rw [List.foldl_append]
  simp only [List.foldl_cons, List.foldl_nil]
  rw [find?_dictInsertMetric, if_neg (by decide), find?_dictInsertMetric,
    if_pos (by decide)]

theorem find?_mkMETRICS_send (mlist : List Metric) :
    (mkMETRICS mlist).find?
        (fun x => x.field = "subsystem_metrics_send_metrics_seconds")
      = some (.scalar .floatM (BaseM.mk0 "subsystem_metrics_send_metrics_seconds"
          "Time spent sending metrics to other nodes")) := by
  unfold mkMETRICS subsystem_metricslist
  rw [List.foldl_append]
  simp only [List.foldl_cons, List.foldl_nil]
  rw [find?_dictInsertMetric, if_pos (by decide)]

theorem pipe_execute_ms_metrics (ms : Metrics) (st : Store) (d1 d2 tNow sendNow : ℤ)
    (rF : Bool) (h : ms.metrics_have_changed = true) :
    (ms.pipe_execute st d1 d2 tNow sendNow false rF).ms.metrics
      = updateMetric
          (updateMetric
            (updateMetric ((storeAll ms.metrics st.hash).1)
              "subsystem_metrics_pipe_execute_seconds" (fun m => m.inc d1))
            "subsystem_metrics_pipe_execute_calls" (fun m => m.inc 1))
          "subsystem_metrics_send_metrics_seconds" (fun m => m.inc d2) := by
  unfold Metrics.pipe_execute
  dsimp only
  rw [if_pos h]
  simp [send_metrics_exc_none, send_metrics_ms_metrics]

/-- C10: `pipe_execute` records its self-observability metrics by calling
`inc` directly on the metric objects after clearing the namespace-level
dirty flag: starting from a freshly constructed namespace (whose flag is
true), one flush leaves `metrics_have_changed` false — so
`should_pipe_execute` is false at every later clock reading — while the
flush-duration, flush-call and broadcast-duration metrics hold the
nonzero local values `d1`, `1`, `d2` with their per-metric dirty flags
set, to be persisted only by a later flush. -/
theorem C10_pipe_execute_meta_metrics (mlist : List Metric) (ns inst : String)
    (t0 pInt sInt : ℤ) (st : Store) (d1 d2 tNow sendNow : ℤ) (rF : Bool)
    (r : PipeResult) (hd1 : 0 < d1) (hd2 : 0 < d2)
    (hr : r = (Metrics.mk0 ns mlist inst t0 pInt sInt).pipe_execute st d1 d2 tNow
      sendNow false rF) :
    r.ms.metrics_have_changed = false ∧
    Metrics.get r.ms "subsystem_metrics_pipe_execute_seconds" = some d1 ∧
    d1 ≠ 0 ∧
    Metrics.get r.ms "subsystem_metrics_pipe_execute_calls" = some 1 ∧
    Metrics.get r.ms "subsystem_metrics_send_metrics_seconds" = some d2 ∧
    d2 ≠ 0 ∧
    (r.ms.findMetric "subsystem_metrics_pipe_execute_seconds").map
      Metric.metric_has_changed = some true ∧
    (r.ms.findMetric "subsystem_metrics_pipe_execute_calls").map
      Metric.metric_has_changed = some true ∧
    (r.ms.findMetric "subsystem_metrics_send_metrics_seconds").map
      Metric.metric_has_changed = some true ∧
    (∀ now₂, r.ms.should_pipe_execute now₂ = false) := by
  subst hr
  have hflag : (Metrics.mk0 ns mlist inst t0 pInt sInt).metrics_have_changed = true := rfl
  have hmet := pipe_execute_ms_metrics (Metrics.mk0 ns mlist inst t0 pInt sInt)
    st d1 d2 tNow sendNow rF hflag
  have hMmetrics : (Metrics.mk0 ns mlist inst t0 pInt sInt).metrics = mkMETRICS mlist := rfl
  have hsec : ((Metrics.mk0 ns mlist inst t0 pInt sInt).pipe_execute st d1 d2 tNow
      sendNow false rF).ms.findMetric "subsystem_metrics_pipe_execute_seconds"
      = some (.scalar .floatM ⟨"subsystem_metrics_pipe_execute_seconds",
          "Time spent saving metrics to redis", 0 + d1, true⟩) := by
    unfold Metrics.findMetric
    rw [hmet, hMmetrics]
    rw [find?_updateMetric _ _ _ _ (fun m => Metric.inc_field m d2), if_neg (by decide)]
    rw [find?_updateMetric _ _ _ _ (fun m => Metric.inc_field m 1), if_neg (by decide)]
    rw [find?_updateMetric _ _ _ _ (fun m => Metric.inc_field m d1), if_pos rfl]
    rw [storeAll_fst, find?_map_store, find?_mkMETRICS_seconds]
    rfl
  have hcalls : ((Metrics.mk0 ns mlist inst t0 pInt sInt).pipe_execute st d1 d2 tNow
      sendNow false rF).ms.findMetric "subsystem_metrics_pipe_execute_calls"
      = some (.scalar .intM ⟨"subsystem_metrics_pipe_execute_calls",
          "Number of calls to pipe_execute", 0 + 1, true⟩) := by
    unfold Metrics.findMetric
    rw [hmet, hMmetrics]
    rw [find?_updateMetric _ _ _ _ (fun m => Metric.inc_field m d2), if_neg (by decide)]
    rw [find?_updateMetric _ _ _ _ (fun m => Metric.inc_field m 1), if_pos rfl]
    rw [find?_updateMetric _ _ _ _ (fun m => Metric.inc_field m d1), if_neg (by decide)]
    rw [storeAll_fst, find?_map_store, find?_mkMETRICS_calls]
    rfl
  have hsend : ((Metrics.mk0 ns mlist inst t0 pInt sInt).pipe_execute st d1 d2 tNow
      sendNow false rF).ms.findMetric "subsystem_metrics_send_metrics_seconds"
      = some (.scalar .floatM ⟨"subsystem_metrics_send_metrics_seconds",
          "Time spent sending metrics to other nodes", 0 + d2, true⟩) := by
    unfold Metrics.findMetric
    rw [hmet, hMmetrics]
    rw [find?_updateMetric _ _ _ _ (fun m => Metric.inc_field m d2), if_pos rfl]
    rw [find?_updateMetric _ _ _ _ (fun m => Metric.inc_field m 1), if_neg (by decide)]
    rw [find?_updateMetric _ _ _ _ (fun m => Metric.inc_field m d1), if_neg (by decide)]
    rw [storeAll_fst, find?_map_store, find?_mkMETRICS_send]
    rfl
  refine ⟨pipe_execute_flag_false _ _ _ _ _ _ _ _, ?_, by omega, ?_, ?_, by omega,
    ?_, ?_, ?_, ?_⟩
  · simp [Metrics.get, hsec, Metric.get, BaseM.get]
  · simp [Metrics.get, hcalls, Metric.get, BaseM.get]
  · simp [Metrics.get, hsend, Metric.get, BaseM.get]
  · simp [hsec, Metric.metric_has_changed]
  · simp [hcalls, Metric.metric_has_changed]
  · simp [hsend, Metric.metric_has_changed]
  · intro now₂
    unfold Metrics.should_pipe_execute
    simp [pipe_execute_flag_false]

/-- Witness for C10: a fresh namespace flushed with measured durations 3
and 4 ends with the namespace flag clear while the flush-call counter
holds the unflushed local value 1. -/
theorem C10_pipe_execute_meta_metrics_witness :
    ((Metrics.mk0 "awx" [] "n1" 0 5 10).pipe_execute exStore 3 4 50 60
        false false).ms.metrics_have_changed = false ∧
    Metrics.get ((Metrics.mk0 "awx" [] "n1" 0 5 10).pipe_execute exStore 3 4 50 60
        false false).ms "subsystem_metrics_pipe_execute_calls" = some 1 :=
  ⟨(C10_pipe_execute_meta_metrics [] "awx" "n1" 0 5 10 exStore 3 4 50 60 false _
      (by decide) (by decide) rfl).1,
    (C10_pipe_execute_meta_metrics [] "awx" "n1" 0 5 10 exStore 3 4 50 60 false _
      (by decide) (by decide) rfl).2.2.2.1⟩
